import Mathlib

/-!
Shallow embedding of the WeatherBusLite master-side driver
(WeatherBusLite.cpp / WeatherBusLite.h).

The RS485 bus is modelled explicitly: the byte stream seen by the scan loop
of `parseResponse` is a list of loop iterations, each carrying the value of
`millis() - startMillis` observed at the loop head and the byte read in that
iteration (`none` when `RS485.available()` is false).  The side effects on
the bus object (transmit session, flush, grace delay, receive enable and
disable) are recorded as an action trace.  The `float` measurement is
modelled as a rational number; the output reference parameter is threaded
as an explicit value.
-/

namespace WeatherBusLite

/-- The NUL byte, written by the code as the C string terminator. -/
def NUL : Char := Char.ofNat 0

/-- #define WEATHERBUSLITE_RESPONSE_TIMEOUT 1000 -/
def RESPONSE_TIMEOUT : Nat := 1000

/-- #define WEATHERBUSLITE_GRACE 2 -/
def GRACE : Nat := 2

/-- sizeof(response): the response buffer is `char response[32]`. -/
def responseCapacity : Nat := 32

/-- enum ParseState { WAIT_FOR_START, READ_PAYLOAD, DONE } -/
inductive ParseState : Type
  | waitForStart : ParseState
  | readPayload : ParseState
  | done : ParseState
deriving DecidableEq, Repr

/-- Observable actions performed on the RS485 bus object (and `delay`). -/
inductive BusAction : Type
  | rs485begin : Nat → BusAction
  | beginTransmission : BusAction
  | write : Char → BusAction
  | println : BusAction
  | endTransmission : BusAction
  | flush : BusAction
  | delay : Nat → BusAction
  | receive : BusAction
  | noReceive : BusAction
deriving DecidableEq, Repr

/-- One iteration of the scan loop in `parseResponse`: the elapsed time
`millis() - startMillis` observed at the loop head, and the byte delivered by
`RS485.read()` in this iteration (`none` when `RS485.available()` is false). -/
structure Iter : Type where
  elapsed : Nat
  byte : Option Char
deriving DecidableEq, Repr

/-- One execution of the `switch (state)` statement of `parseResponse` on the
incoming byte: returns the new state and the new buffer contents (the list of
characters stored in `response[0..index)`; the index is the list length). -/
def stepByte (expectedType : Char) (st : ParseState) (buf : List Char)
    (incoming : Char) : ParseState × List Char :=
  match st with
  | .waitForStart =>
      if incoming = expectedType then (.readPayload, buf ++ [incoming])
      else (.waitForStart, buf)
  | .readPayload =>
      if incoming = '\n' ∨ buf.length ≥ responseCapacity - 1 then (.done, buf)
      else (.readPayload, buf ++ [incoming])
  | .done => (.done, buf)

/-- `strchr(response, ':')` on the null-terminated buffer, returning the
characters after the first colon: the scan stops at a NUL byte (the written
terminator, or an embedded NUL) and returns `none` when no colon precedes it. -/
def afterColon : List Char → Option (List Char)
  | [] => none
  | b :: rest => if b = NUL then none else if b = ':' then some rest else afterColon rest

/-- ASCII decimal digit test used by the `atof` model. -/
def isDigitChar (c : Char) : Bool := 48 ≤ c.toNat && c.toNat ≤ 57

/-- C `isspace` on the default locale: space, tab, line feed, vertical tab,
form feed, carriage return. -/
def isSpaceChar (c : Char) : Bool :=
  c = ' ' || c = '\t' || c = '\n' || c.toNat = 11 || c.toNat = 12 || c = '\r'

/-- Value of a string of decimal digits. -/
def digitsToNat (ds : List Char) : Nat := ds.foldl (fun a c => 10 * a + (c.toNat - 48)) 0

/-- Exponent digits after `e`/`E`: an optional sign followed by at least one
digit; `none` when no digit follows (C then ignores the exponent part). -/
def expDigits (s : List Char) : Option Int :=
  match s with
  | [] => none
  | c :: r =>
    if c = '+' then
      if (r.takeWhile isDigitChar).isEmpty then none
      else some ((digitsToNat (r.takeWhile isDigitChar) : Int))
    else if c = '-' then
      if (r.takeWhile isDigitChar).isEmpty then none
      else some (-(digitsToNat (r.takeWhile isDigitChar) : Int))
    else
      if (s.takeWhile isDigitChar).isEmpty then none
      else some ((digitsToNat (s.takeWhile isDigitChar) : Int))

/-- The exponent applied by the `atof` model: 0 unless a well-formed
exponent part starts here. -/
def expPart : List Char → Int
  | c :: rest => if c = 'e' ∨ c = 'E' then (expDigits rest).getD 0 else 0
  | [] => 0

/-- Scale a mantissa by a (possibly negative) power of ten. -/
def applyExp (m : Rat) (e : Int) : Rat :=
  if 0 ≤ e then m * (10 : Rat) ^ e.toNat else m / (10 : Rat) ^ (-e).toNat

/-- The fractional digits of the literal: present only when the characters
after the integer digits start with a decimal point. -/
def fracDigits (r1 : List Char) : List Char :=
  match r1 with
  | [] => []
  | c :: r => if c = '.' then r.takeWhile isDigitChar else []

/-- The characters remaining after the optional fraction. -/
def restAfterFrac (r1 : List Char) : List Char :=
  match r1 with
  | [] => r1
  | c :: r => if c = '.' then r.dropWhile isDigitChar else r1

/-- Digits, optional fraction and optional exponent after the sign: 0 when
neither an integer nor a fractional digit is present (no conversion). -/
def atofAfterSign (s : List Char) : Rat :=
  let ip := s.takeWhile isDigitChar
  let r1 := s.dropWhile isDigitChar
  let fp := fracDigits r1
  if ip.isEmpty ∧ fp.isEmpty then 0
  else
    applyExp ((digitsToNat ip : Rat) + (digitsToNat fp : Rat) / (10 : Rat) ^ fp.length)
      (expPart (restAfterFrac r1))

/-- Model of C `atof` on the decimal forms used by the protocol: skip leading
whitespace, optional sign, digits with optional fraction and exponent; stops
at the first character that cannot continue the literal and returns 0 when no
conversion can be performed.  (Hexadecimal and infinity/nan forms of `strtod`
are outside the wire format and not modelled.) -/
def atofChars (s : List Char) : Rat :=
  match s.dropWhile isSpaceChar with
  | [] => atofAfterSign []
  | c :: r =>
    if c = '-' then - atofAfterSign r
    else if c = '+' then atofAfterSign r
    else atofAfterSign (c :: r)

/-- The `while (millis() - startMillis < WEATHERBUSLITE_RESPONSE_TIMEOUT)`
scan loop of `parseResponse`, from a given state and buffer: returns the
success flag, the final value of the output parameter, and the bus actions
performed after the initial `RS485.receive()`.  The loop exits with failure
as soon as the elapsed-time check fails (and when the iteration list is
exhausted, which also models the end of the time budget), executing
`RS485.noReceive()`; the success return happens inside the loop. -/
def parseLoop (expectedType : Char) :
    List Iter → ParseState → List Char → Rat → Bool × Rat × List BusAction
  | [], _, _, value => (false, value, [BusAction.noReceive])
  | it :: rest, st, buf, value =>
    if it.elapsed < RESPONSE_TIMEOUT then
      match it.byte with
      | none => parseLoop expectedType rest st buf value
      | some incoming =>
        if (stepByte expectedType st buf incoming).1 = .done then
          match afterColon (stepByte expectedType st buf incoming).2 with
          | some suffix => (true, atofChars suffix, [])
          | none =>
              parseLoop expectedType rest (stepByte expectedType st buf incoming).1
                (stepByte expectedType st buf incoming).2 value
        else
          parseLoop expectedType rest (stepByte expectedType st buf incoming).1
            (stepByte expectedType st buf incoming).2 value
    else (false, value, [BusAction.noReceive])

/-- bool WeatherBusLite::parseResponse(char expectedType, float &value).
The result is (returned flag, final value of `value`, bus action trace). -/
def parseResponse (expectedType : Char) (input : List Iter) (value : Rat) :
    Bool × Rat × List BusAction :=
  ((parseLoop expectedType input .waitForStart [] value).1,
   (parseLoop expectedType input .waitForStart [] value).2.1,
   BusAction.receive :: (parseLoop expectedType input .waitForStart [] value).2.2)

/-- The characters transmitted by `RS485.print` for a C string: everything up
to the first NUL byte. -/
def cString (s : List Char) : List Char := s.takeWhile (fun c => c ≠ NUL)

/-- void WeatherBusLite::sendQuery(const char* query): the bus actions of one
transmit phase. -/
def sendQuery (query : List Char) : List BusAction :=
  [BusAction.beginTransmission] ++ (cString query).map BusAction.write ++
    [BusAction.println, BusAction.endTransmission, BusAction.flush, BusAction.delay GRACE]

/-- bool WeatherBusLite::queryCustom(char queryType, float &value): builds the
query array {'?', queryType, '\0'}, sends it, then parses the response. -/
def queryCustom (queryType : Char) (input : List Iter) (value : Rat) :
    Bool × Rat × List BusAction :=
  ((parseResponse queryType input value).1,
   (parseResponse queryType input value).2.1,
   sendQuery ['?', queryType, NUL] ++ (parseResponse queryType input value).2.2)

/-- bool WeatherBusLite::queryTemp(float &temperature): sendQuery("?T") then
parseResponse('T', temperature). -/
def queryTemp (input : List Iter) (temperature : Rat) : Bool × Rat × List BusAction :=
  ((parseResponse 'T' input temperature).1,
   (parseResponse 'T' input temperature).2.1,
   sendQuery ['?', 'T', NUL] ++ (parseResponse 'T' input temperature).2.2)

/-- bool WeatherBusLite::queryHumidity(float &humidity). -/
def queryHumidity (input : List Iter) (humidity : Rat) : Bool × Rat × List BusAction :=
  ((parseResponse 'H' input humidity).1,
   (parseResponse 'H' input humidity).2.1,
   sendQuery ['?', 'H', NUL] ++ (parseResponse 'H' input humidity).2.2)

/-- bool WeatherBusLite::queryPressure(float &pressure). -/
def queryPressure (input : List Iter) (pressure : Rat) : Bool × Rat × List BusAction :=
  ((parseResponse 'P' input pressure).1,
   (parseResponse 'P' input pressure).2.1,
   sendQuery ['?', 'P', NUL] ++ (parseResponse 'P' input pressure).2.2)

/-- bool WeatherBusLite::queryAirQuality(float &airQuality). -/
def queryAirQuality (input : List Iter) (airQuality : Rat) : Bool × Rat × List BusAction :=
  ((parseResponse 'A' input airQuality).1,
   (parseResponse 'A' input airQuality).2.1,
   sendQuery ['?', 'A', NUL] ++ (parseResponse 'A' input airQuality).2.2)

/-- bool WeatherBusLite::queryUV(float &UV). -/
def queryUV (input : List Iter) (uv : Rat) : Bool × Rat × List BusAction :=
  ((parseResponse 'U' input uv).1,
   (parseResponse 'U' input uv).2.1,
   sendQuery ['?', 'U', NUL] ++ (parseResponse 'U' input uv).2.2)

/-- bool WeatherBusLite::queryRainfall(float &rainfall). -/
def queryRainfall (input : List Iter) (rainfall : Rat) : Bool × Rat × List BusAction :=
  ((parseResponse 'R' input rainfall).1,
   (parseResponse 'R' input rainfall).2.1,
   sendQuery ['?', 'R', NUL] ++ (parseResponse 'R' input rainfall).2.2)

/-- bool WeatherBusLite::queryWindSpeed(float &windSpeed). -/
def queryWindSpeed (input : List Iter) (windSpeed : Rat) : Bool × Rat × List BusAction :=
  ((parseResponse 'W' input windSpeed).1,
   (parseResponse 'W' input windSpeed).2.1,
   sendQuery ['?', 'W', NUL] ++ (parseResponse 'W' input windSpeed).2.2)

/-- bool WeatherBusLite::queryWindDirection(float &windDirection). -/
def queryWindDirection (input : List Iter) (windDirection : Rat) :
    Bool × Rat × List BusAction :=
  ((parseResponse 'D' input windDirection).1,
   (parseResponse 'D' input windDirection).2.1,
   sendQuery ['?', 'D', NUL] ++ (parseResponse 'D' input windDirection).2.2)

/-- bool WeatherBusLite::queryCanopyTemperature(float &canopyTemperature). -/
def queryCanopyTemperature (input : List Iter) (canopyTemperature : Rat) :
    Bool × Rat × List BusAction :=
  ((parseResponse 'C' input canopyTemperature).1,
   (parseResponse 'C' input canopyTemperature).2.1,
   sendQuery ['?', 'C', NUL] ++ (parseResponse 'C' input canopyTemperature).2.2)

/-- void WeatherBusLite::begin(uint32_t baudRate): RS485.begin(baudRate). -/
def begin (baudRate : Nat) : List BusAction := [BusAction.rs485begin baudRate]

/-- The declared default of `begin`: `void begin(uint32_t baudRate = 9600)`. -/
def beginDefaultBaudRate : Nat := 9600

/-- The nine fixed-channel convenience operations with their channel codes,
in header order. -/
def fixedQueries : List (Char × (List Iter → Rat → Bool × Rat × List BusAction)) :=
  [('T', queryTemp), ('H', queryHumidity), ('P', queryPressure),
   ('A', queryAirQuality), ('U', queryUV), ('R', queryRainfall),
   ('W', queryWindSpeed), ('D', queryWindDirection), ('C', queryCanopyTemperature)]

/-- Modelled from the spec (data model, not represented as code in the
repository): a Channel Code is exactly one printable, non-newline, non-colon
ASCII character. -/
def isChannelCode (c : Char) : Prop :=
  32 ≤ c.toNat ∧ c.toNat ≤ 126 ∧ c ≠ '\n' ∧ c ≠ ':'

/-- Every iteration of the given input lies within the response time budget. -/
def inBudget (input : List Iter) : Prop :=
  ∀ it ∈ input, it.elapsed < RESPONSE_TIMEOUT

/-- The bytes delivered by the input, in order. -/
def bytesOf (input : List Iter) : List Char := input.filterMap Iter.byte

/-- An input that delivers the given bytes back to back at elapsed time 0
(well inside the time budget). -/
def streamAll (s : List Char) : List Iter := s.map fun c => ⟨0, some c⟩

/-- The scan loop with timing erased: the same state machine driven directly
by the delivered bytes. -/
def runBytes (expectedType : Char) :
    List Char → ParseState → List Char → Rat → Bool × Rat × List BusAction
  | [], _, _, value => (false, value, [BusAction.noReceive])
  | b :: rest, st, buf, value =>
    if (stepByte expectedType st buf b).1 = .done then
      match afterColon (stepByte expectedType st buf b).2 with
      | some suffix => (true, atofChars suffix, [])
      | none =>
          runBytes expectedType rest (stepByte expectedType st buf b).1
            (stepByte expectedType st buf b).2 value
    else
      runBytes expectedType rest (stepByte expectedType st buf b).1
        (stepByte expectedType st buf b).2 value

/-- States of the parser reachable by the loop from its initial state. -/
inductive Reachable (expectedType : Char) : ParseState → List Char → Prop
  | init : Reachable expectedType .waitForStart []
  | step (st : ParseState) (buf : List Char) (b : Char) :
      Reachable expectedType st buf →
      Reachable expectedType (stepByte expectedType st buf b).1
        (stepByte expectedType st buf b).2

/-! ### Helper lemmas -/

/-- Within the time budget, the scan loop behaves as the timing-erased byte
machine on the delivered bytes. -/
theorem parseLoop_eq_runBytes (c : Char) (input : List Iter) (st : ParseState)
    (buf : List Char) (v : Rat) (h : inBudget input) :
    parseLoop c input st buf v = runBytes c (bytesOf input) st buf v := by
  induction input generalizing st buf with
  | nil => rfl
  | cons it rest ih =>
    have h1 : it.elapsed < RESPONSE_TIMEOUT := h it (List.mem_cons_self it rest)
    have h2 : inBudget rest := fun x hx => h x (List.mem_cons_of_mem it hx)
    cases hb : it.byte with
    | none =>
      simp only [parseLoop, h1, if_true, hb, bytesOf]
      rw [List.filterMap_cons_none hb]
      exact ih st buf h2
    | some b =>
      simp only [parseLoop, h1, if_true, hb, bytesOf]
      rw [List.filterMap_cons_some hb]
      simp only [runBytes]
      split
      · split <;> simp [ih _ _ h2, bytesOf]
      · exact ih _ _ h2

/-- The colon search skips a head byte that is neither NUL nor a colon. -/
theorem afterColon_cons_skip (b : Char) (l : List Char) (h1 : b ≠ NUL) (h2 : b ≠ ':') :
    afterColon (b :: l) = afterColon l := by
  simp [afterColon, h1, h2]

/-- The colon search finds the separator after a colon-free, NUL-free prefix. -/
theorem afterColon_prefix (pre num : List Char) (h : ∀ b ∈ pre, b ≠ ':' ∧ b ≠ NUL) :
    afterColon (pre ++ ':' :: num) = some num := by
  induction pre with
  | nil => simp +decide [afterColon, NUL]
  | cons b t ih =>
    have hb := h b (List.mem_cons_self b t)
    rw [List.cons_append, afterColon_cons_skip b _ hb.2 hb.1]
    exact ih fun x hx => h x (List.mem_cons_of_mem b hx)

/-- The colon search fails on a buffer containing no colon. -/
theorem afterColon_eq_none (l : List Char) (h : ':' ∉ l) : afterColon l = none := by
  induction l with
  | nil => rfl
  | cons b t ih =>
    have hb : b ≠ ':' := fun e => h (e ▸ List.mem_cons_self b t)
    by_cases hn : b = NUL
    · simp [afterColon, hn]
    · rw [afterColon_cons_skip b t hn hb]
      exact ih fun hx => h (List.mem_cons_of_mem b hx)

/-- In the waiting state, bytes different from the requested code are
discarded. -/
theorem runBytes_skip_junk (c : Char) (junk rest buf : List Char) (v : Rat)
    (h : ∀ b ∈ junk, b ≠ c) :
    runBytes c (junk ++ rest) .waitForStart buf v = runBytes c rest .waitForStart buf v := by
  induction junk with
  | nil => rfl
  | cons b t ih =>
    have hb : b ≠ c := h b (List.mem_cons_self b t)
    rw [List.cons_append]
    simp only [runBytes, stepByte, if_neg hb]
    simp only [reduceCtorEq, if_false]
    exact ih fun x hx => h x (List.mem_cons_of_mem b hx)

/-- The requested code byte starts the payload phase and is buffered. -/
theorem runBytes_start (c : Char) (rest buf : List Char) (v : Rat) :
    runBytes c (c :: rest) .waitForStart buf v
      = runBytes c rest .readPayload (buf ++ [c]) v := by
  simp [runBytes, stepByte]

/-- Payload bytes that are not line feeds are appended while the buffer has
room. -/
theorem runBytes_payload_chunk (c : Char) (bs rest buf : List Char) (v : Rat)
    (h1 : ∀ b ∈ bs, b ≠ '\n') (h2 : buf.length + bs.length ≤ responseCapacity - 1) :
    runBytes c (bs ++ rest) .readPayload buf v
      = runBytes c rest .readPayload (buf ++ bs) v := by
  induction bs generalizing buf with
  | nil => simp
  | cons b t ih =>
    have hb : b ≠ '\n' := h1 b (List.mem_cons_self b t)
    have hcond : ¬(b = '\n' ∨ buf.length ≥ responseCapacity - 1) := by
      simp only [List.length_cons] at h2
      push_neg
      exact ⟨hb, by omega⟩
    rw [List.cons_append]
    simp only [runBytes, stepByte, if_neg hcond]
    simp only [reduceCtorEq, if_false]
    rw [ih (buf ++ [b]) (fun x hx => h1 x (List.mem_cons_of_mem b hx))
      (by simp only [List.length_append, List.length_cons, List.length_nil] at h2 ⊢; omega)]
    simp

/-- A line feed in the payload phase completes the frame; when the buffer has
a colon, the loop returns success with the converted suffix. -/
theorem runBytes_terminate (c : Char) (rest buf : List Char) (v : Rat) (suffix : List Char)
    (h : afterColon buf = some suffix) :
    runBytes c ('\n' :: rest) .readPayload buf v = (true, atofChars suffix, []) := by
  simp [runBytes, stepByte, h]

/-- Every byte in the buffer after a step was in the buffer before or is the
incoming byte. -/
theorem stepByte_mem (c : Char) (st : ParseState) (buf : List Char) (b x : Char)
    (hx : x ∈ (stepByte c st buf b).2) : x ∈ buf ∨ x = b := by
  cases st with
  | waitForStart =>
    simp only [stepByte] at hx
    split at hx <;> simp_all [List.mem_append]
  | readPayload =>
    simp only [stepByte] at hx
    split at hx <;> simp_all [List.mem_append]
  | done =>
    simp only [stepByte] at hx
    exact Or.inl hx

/-- Without a colon in the buffer or in the remaining bytes, the byte machine
reports failure. -/
theorem runBytes_no_colon (c : Char) (bs : List Char) (st : ParseState) (buf : List Char)
    (v : Rat) (hbuf : ':' ∉ buf) (hbs : ∀ b ∈ bs, b ≠ ':') :
    (runBytes c bs st buf v).1 = false := by
  induction bs generalizing st buf with
  | nil => rfl
  | cons b t ih =>
    have hb : b ≠ ':' := hbs b (List.mem_cons_self b t)
    have hbuf2 : ':' ∉ (stepByte c st buf b).2 := by
      intro hmem
      rcases stepByte_mem c st buf b ':' hmem with hh | hh
      · exact hbuf hh
      · exact hb hh.symm
    have ht : ∀ x ∈ t, x ≠ ':' := fun x hx => hbs x (List.mem_cons_of_mem b hx)
    simp only [runBytes]
    split
    · simp only [afterColon_eq_none _ hbuf2]
      exact ih _ _ hbuf2 ht
    · exact ih _ _ hbuf2 ht

/-- Every run of the scan loop either succeeds with an empty action tail, or
fails leaving the output value unchanged and disabling the receive path. -/
theorem parseLoop_cases (c : Char) (input : List Iter) (st : ParseState)
    (buf : List Char) (v : Rat) :
    ((parseLoop c input st buf v).1 = true ∧ (parseLoop c input st buf v).2.2 = []) ∨
      parseLoop c input st buf v = (false, v, [BusAction.noReceive]) := by
  induction input generalizing st buf with
  | nil => exact Or.inr rfl
  | cons it rest ih =>
    by_cases h1 : it.elapsed < RESPONSE_TIMEOUT
    · cases hb : it.byte with
      | none =>
        simp only [parseLoop, h1, if_true, hb]
        exact ih _ _
      | some b =>
        simp only [parseLoop, h1, if_true, hb]
        split
        · split
          · exact Or.inl ⟨rfl, rfl⟩
          · exact ih _ _
        · exact ih _ _
    · exact Or.inr (by simp only [parseLoop, h1, if_false])

/-- If no in-budget iteration delivers the requested code byte, the loop stays
in the waiting state and fails. -/
theorem parseLoop_no_start (c : Char) (input : List Iter) (buf : List Char) (v : Rat)
    (h : ∀ it ∈ input, it.elapsed < RESPONSE_TIMEOUT → it.byte ≠ some c) :
    (parseLoop c input .waitForStart buf v).1 = false := by
  induction input generalizing buf with
  | nil => rfl
  | cons it rest ih =>
    by_cases h1 : it.elapsed < RESPONSE_TIMEOUT
    · cases hb : it.byte with
      | none =>
        simp only [parseLoop, h1, if_true, hb]
        exact ih _ fun x hx => h x (List.mem_cons_of_mem it hx)
      | some b =>
        have hbc : ¬ b = c := by
          intro e
          exact h it (List.mem_cons_self it rest) h1 (by rw [hb, e])
        simp only [parseLoop, h1, if_true, hb, stepByte, if_neg hbc]
        simp only [reduceCtorEq, if_false]
        exact ih _ fun x hx => h x (List.mem_cons_of_mem it hx)
    · simp only [parseLoop, h1, if_false]

/-- Invariant of the reachable parser states: the buffer index never exceeds
31, and the waiting state has an empty buffer. -/
theorem reachable_inv (c : Char) (st : ParseState) (buf : List Char)
    (h : Reachable c st buf) :
    buf.length ≤ responseCapacity - 1 ∧ (st = .waitForStart → buf = []) := by
  induction h with
  | init => exact ⟨by simp [responseCapacity], fun _ => rfl⟩
  | step st buf b hr ih =>
    cases st with
    | waitForStart =>
      have hbuf : buf = [] := ih.2 rfl
      by_cases hb : b = c <;> simp [stepByte, hb, hbuf, responseCapacity]
    | readPayload =>
      by_cases hcond : b = '\n' ∨ buf.length ≥ responseCapacity - 1
      · simp only [stepByte, if_pos hcond]
        exact ⟨ih.1, by intro hh; cases hh⟩
      · simp only [stepByte, if_neg hcond]
        refine ⟨?_, by intro hh; cases hh⟩
        have : ¬ buf.length ≥ responseCapacity - 1 := fun hh => hcond (Or.inr hh)
        simp only [List.length_append, List.length_cons, List.length_nil]
        omega
    | done => exact ⟨ih.1, by intro hh; cases hh⟩

instance (c : Char) : Decidable (isChannelCode c) := by
  unfold isChannelCode
  infer_instance

instance (input : List Iter) : Decidable (inBudget input) := by
  unfold inBudget
  infer_instance

/-- A channel code is not the NUL byte. -/
theorem isChannelCode_ne_nul (c : Char) (hc : isChannelCode c) : c ≠ NUL := by
  intro e
  rw [e] at hc
  exact absurd hc.1 (by decide)

/-! ### Claim theorems -/

/-- C1: for every requested channel code `c`, if the in-budget byte stream
delivers arbitrary bytes not equal to `c` (discarded), then `c`, then payload
bytes, a colon, a numeric suffix and a line feed — the whole frame fitting the
31-byte payload limit — then parseResponse returns true and writes the value
converted from the characters after the first colon of the buffered frame. -/
theorem c1_frame_extraction (c : Char) (junk pre num trailing : List Char)
    (input : List Iter) (v : Rat)
    (hc : isChannelCode c)
    (hin : inBudget input)
    (hbytes : bytesOf input = junk ++ (c :: ((pre ++ (':' :: num)) ++ ('\n' :: trailing))))
    (hjunk : ∀ b ∈ junk, b ≠ c)
    (hpre : ∀ b ∈ pre, b ≠ ':' ∧ b ≠ '\n' ∧ b ≠ NUL)
    (hnum : '\n' ∉ num)
    (hlen : 2 + pre.length + num.length ≤ responseCapacity - 1) :
    parseResponse c input v = (true, atofChars num, [BusAction.receive]) := by
  have hcN : c ≠ NUL := isChannelCode_ne_nul c hc
  have hcC : c ≠ ':' := hc.2.2.2
  have hchunk : ∀ b ∈ pre ++ (':' :: num), b ≠ '\n' := by
    intro b hb
    rcases List.mem_append.mp hb with h | h
    · exact (hpre b h).2.1
    · rcases List.mem_cons.mp h with rfl | h
      · decide
      · exact fun e => hnum (e ▸ h)
  have hclen : (([] : List Char) ++ [c]).length + (pre ++ (':' :: num)).length
      ≤ responseCapacity - 1 := by
    simp only [List.length_cons, List.length_nil, List.length_append, List.nil_append]
      at hlen ⊢
    omega
  have hcolon : afterColon ((([] : List Char) ++ [c]) ++ (pre ++ (':' :: num)))
      = some num := by
    have he : ((([] : List Char) ++ [c]) ++ (pre ++ (':' :: num)))
        = (c :: pre) ++ (':' :: num) := by simp
    rw [he]
    refine afterColon_prefix (c :: pre) num ?_
    intro b hb
    rcases List.mem_cons.mp hb with rfl | h
    · exact ⟨hcC, hcN⟩
    · exact ⟨(hpre b h).1, (hpre b h).2.2⟩
  have hrun : runBytes c (bytesOf input) .waitForStart [] v
      = (true, atofChars num, []) := by
    rw [hbytes,
      runBytes_skip_junk c junk (c :: ((pre ++ (':' :: num)) ++ ('\n' :: trailing))) [] v hjunk,
      runBytes_start c ((pre ++ (':' :: num)) ++ ('\n' :: trailing)) [] v,
      runBytes_payload_chunk c (pre ++ (':' :: num)) ('\n' :: trailing) ([] ++ [c]) v
        hchunk hclen,
      runBytes_terminate c trailing (([] ++ [c]) ++ (pre ++ (':' :: num))) v num hcolon]
  unfold parseResponse
  rw [parseLoop_eq_runBytes c input .waitForStart [] v hin, hrun]

/-- C1 witness: the reference stream `T23.5extra:19.75\n` requested with code
`T` yields success with value 19.75. -/
theorem c1_frame_extraction_witness :
    parseResponse 'T'
      (streamAll ['T','2','3','.','5','e','x','t','r','a',':','1','9','.','7','5','\n']) 0
      = (true, (19.75 : Rat), [BusAction.receive]) := by
  have h := c1_frame_extraction 'T' [] ['2','3','.','5','e','x','t','r','a']
    ['1','9','.','7','5'] []
    (streamAll ['T','2','3','.','5','e','x','t','r','a',':','1','9','.','7','5','\n']) 0
    (by decide) (by decide) (by decide) (by decide) (by decide) (by decide) (by decide)
  rw [h]
  simp +decide [atofChars, atofAfterSign, fracDigits, restAfterFrac, expPart, expDigits,
    applyExp, digitsToNat, isDigitChar, isSpaceChar]
  norm_num

/-- C2: the numeric extraction is permissive: `T:19.75xyz\n` parses with
success to 19.75 (conversion stops at the first non-numeric trailing
character), and `T:abc\n` parses with success to 0. -/
theorem c2_numeric_tolerance (v : Rat) :
    parseResponse 'T' (streamAll ['T',':','1','9','.','7','5','x','y','z','\n']) v
      = (true, (19.75 : Rat), [BusAction.receive]) ∧
    parseResponse 'T' (streamAll ['T',':','a','b','c','\n']) v
      = (true, (0 : Rat), [BusAction.receive]) := by
  constructor
  · simp +decide [parseResponse, parseLoop, stepByte, afterColon, streamAll,
      RESPONSE_TIMEOUT, responseCapacity, NUL, atofChars, atofAfterSign, fracDigits,
      restAfterFrac, expPart, expDigits, applyExp, digitsToNat, isDigitChar, isSpaceChar]
    norm_num
  · simp +decide [parseResponse, parseLoop, stepByte, afterColon, streamAll,
      RESPONSE_TIMEOUT, responseCapacity, NUL, atofChars, atofAfterSign, fracDigits,
      restAfterFrac, expPart, expDigits, applyExp, digitsToNat, isDigitChar, isSpaceChar]

/-- C3: a structurally complete frame without a colon yields failure — in
fact any call whose delivered bytes contain no colon fails — and a full
buffer (index at 31) in the payload phase completes the frame exactly as a
line feed does, not as a distinct error. -/
theorem c3_missing_colon :
    (∀ (c : Char) (input : List Iter) (v : Rat), inBudget input →
      (∀ it ∈ input, it.byte ≠ some ':') → (parseResponse c input v).1 = false) ∧
    (∀ (c b : Char) (buf : List Char), responseCapacity - 1 ≤ buf.length →
      stepByte c .readPayload buf b = (.done, buf)) := by
  constructor
  · intro c input v hin hnc
    have hbs : ∀ b ∈ bytesOf input, b ≠ ':' := by
      intro b hb e
      subst e
      rcases List.mem_filterMap.mp hb with ⟨it, hit, hbyte⟩
      exact hnc it hit hbyte
    unfold parseResponse
    rw [parseLoop_eq_runBytes c input .waitForStart [] v hin]
    exact runBytes_no_colon c (bytesOf input) _ [] v (by simp) hbs
  · intro c b buf hlen
    simp only [stepByte, if_pos (Or.inr hlen : b = '\n' ∨ buf.length ≥ responseCapacity - 1)]

/-- C3 witness: the code byte followed by 30 non-colon, non-line-feed bytes
(31 buffered payload bytes, no colon) reports failure, and the overflow step
completes the frame. -/
theorem c3_missing_colon_witness :
    (parseResponse 'T' (streamAll ('T' :: List.replicate 30 '1')) 0).1 = false ∧
    stepByte 'T' .readPayload ('T' :: List.replicate 30 '1') '1'
      = (.done, 'T' :: List.replicate 30 '1') := by
  constructor
  · exact c3_missing_colon.1 'T' (streamAll ('T' :: List.replicate 30 '1')) 0
      (by decide) (by decide)
  · exact c3_missing_colon.2 'T' '1' ('T' :: List.replicate 30 '1') (by decide)

/-- C4: if no in-budget iteration delivers the requested code byte, the call
fails (the partial state accumulated by then is never reported as success);
and the loop exits immediately with failure at the first iteration whose
elapsed time reaches the budget, regardless of byte availability. -/
theorem c4_channel_isolation_timeout :
    (∀ (c : Char) (input : List Iter) (v : Rat),
      (∀ it ∈ input, it.elapsed < RESPONSE_TIMEOUT → it.byte ≠ some c) →
      (parseResponse c input v).1 = false) ∧
    (∀ (c : Char) (it : Iter) (rest : List Iter) (st : ParseState) (buf : List Char)
      (v : Rat), ¬ it.elapsed < RESPONSE_TIMEOUT →
      parseLoop c (it :: rest) st buf v = (false, v, [BusAction.noReceive])) := by
  constructor
  · intro c input v h
    exact parseLoop_no_start c input [] v h
  · intro c it rest st buf v h
    simp only [parseLoop, h, if_false]

/-- C4 witness: a stream that delivers the requested byte only at the time
budget fails, and an iteration at the budget exits the loop. -/
theorem c4_channel_isolation_timeout_witness :
    (parseResponse 'T' [⟨1000, some 'T'⟩] 0).1 = false ∧
    parseLoop 'T' [⟨1000, some 'T'⟩] .waitForStart [] 0
      = (false, 0, [BusAction.noReceive]) := by
  constructor
  · exact c4_channel_isolation_timeout.1 'T' [⟨1000, some 'T'⟩] 0 (by decide)
  · exact c4_channel_isolation_timeout.2 'T' ⟨1000, some 'T'⟩ [] .waitForStart [] 0
      (by decide)

/-- C5 counterexample: on the success exit the receive path has NOT been
disabled: a successful call returns with the action trace consisting of the
initial receive enable only, with no noReceive action before returning. -/
theorem c5_counterexample :
    (parseResponse 'T' (streamAll ['T', ':', '1', '\n']) 0).1 = true ∧
    BusAction.noReceive ∉ (parseResponse 'T' (streamAll ['T', ':', '1', '\n']) 0).2.2 := by
  constructor
  · decide
  · decide

/-- C5 amended: the receive path is explicitly disabled before returning on
every timeout/failure exit, but on the success exit the call returns with the
receive path still enabled. -/
theorem c5_receive_disabled_on_failure_only (c : Char) (input : List Iter) (v : Rat) :
    (parseResponse c input v).2.2
      = if (parseResponse c input v).1 then [BusAction.receive]
        else [BusAction.receive, BusAction.noReceive] := by
  unfold parseResponse
  rcases parseLoop_cases c input .waitForStart [] v with ⟨h1, h2⟩ | h
  · simp [h1, h2]
  · simp [h]

/-- The action trace of the generic query starts with the transmit session,
flush, grace delay and receive enable, for any non-NUL code byte. -/
theorem queryCustom_trace_shape (c : Char) (input : List Iter) (v : Rat) (hcN : c ≠ NUL) :
    ∃ rest, (queryCustom c input v).2.2
      = [BusAction.beginTransmission, BusAction.write '?', BusAction.write c,
         BusAction.println, BusAction.endTransmission, BusAction.flush,
         BusAction.delay 2, BusAction.receive] ++ rest := by
  refine ⟨(parseLoop c input .waitForStart [] v).2.2, ?_⟩
  simp +decide [queryCustom, parseResponse, sendQuery, cString, GRACE, hcN]

/-- C6: for every channel code, a query transmits exactly the two-byte frame
`?` then the code, then the line terminator, inside a transmit session
followed by a flush and the two-unit grace delay, and only after that enables
the receive path — for the generic operation and all nine fixed ones. -/
theorem c6_query_frame :
    (∀ (c : Char) (input : List Iter) (v : Rat), isChannelCode c →
      ∃ rest, (queryCustom c input v).2.2
        = [BusAction.beginTransmission, BusAction.write '?', BusAction.write c,
           BusAction.println, BusAction.endTransmission, BusAction.flush,
           BusAction.delay 2, BusAction.receive] ++ rest) ∧
    (∀ p ∈ fixedQueries, ∀ (input : List Iter) (v : Rat),
      ∃ rest, (p.2 input v).2.2
        = [BusAction.beginTransmission, BusAction.write '?', BusAction.write p.1,
           BusAction.println, BusAction.endTransmission, BusAction.flush,
           BusAction.delay 2, BusAction.receive] ++ rest) := by
  constructor
  · intro c input v hc
    exact queryCustom_trace_shape c input v (isChannelCode_ne_nul c hc)
  · intro p hp input v
    simp only [fixedQueries, List.mem_cons, List.not_mem_nil, or_false] at hp
    rcases hp with rfl | rfl | rfl | rfl | rfl | rfl | rfl | rfl | rfl <;>
      exact queryCustom_trace_shape _ input v (by decide)

/-- C6 witness: the fixed-channel temperature query and the generic query on
code `T` both start with the full transmit sequence before receive enable. -/
theorem c6_query_frame_witness :
    (∃ rest, (queryCustom 'T' [] 0).2.2
      = [BusAction.beginTransmission, BusAction.write '?', BusAction.write 'T',
         BusAction.println, BusAction.endTransmission, BusAction.flush,
         BusAction.delay 2, BusAction.receive] ++ rest) ∧
    (∃ rest, (queryTemp [] 0).2.2
      = [BusAction.beginTransmission, BusAction.write '?', BusAction.write 'T',
         BusAction.println, BusAction.endTransmission, BusAction.flush,
         BusAction.delay 2, BusAction.receive] ++ rest) := by
  constructor
  · exact c6_query_frame.1 'T' [] 0 (by decide)
  · exact c6_query_frame.2 ('T', queryTemp) (by simp [fixedQueries]) [] 0

/-- C7: each of the nine fixed-channel operations is extensionally equal to
queryCustom at its channel code, and the generic query with code `Z` against
response `Z:5.2\n` succeeds with value 5.2. -/
theorem c7_fixed_queries_specialize :
    (∀ (input : List Iter) (v : Rat), queryTemp input v = queryCustom 'T' input v) ∧
    (∀ (input : List Iter) (v : Rat), queryHumidity input v = queryCustom 'H' input v) ∧
    (∀ (input : List Iter) (v : Rat), queryPressure input v = queryCustom 'P' input v) ∧
    (∀ (input : List Iter) (v : Rat), queryAirQuality input v = queryCustom 'A' input v) ∧
    (∀ (input : List Iter) (v : Rat), queryUV input v = queryCustom 'U' input v) ∧
    (∀ (input : List Iter) (v : Rat), queryRainfall input v = queryCustom 'R' input v) ∧
    (∀ (input : List Iter) (v : Rat), queryWindSpeed input v = queryCustom 'W' input v) ∧
    (∀ (input : List Iter) (v : Rat),
      queryWindDirection input v = queryCustom 'D' input v) ∧
    (∀ (input : List Iter) (v : Rat),
      queryCanopyTemperature input v = queryCustom 'C' input v) ∧
    (∀ v : Rat, (queryCustom 'Z' (streamAll ['Z', ':', '5', '.', '2', '\n']) v).1 = true ∧
      (queryCustom 'Z' (streamAll ['Z', ':', '5', '.', '2', '\n']) v).2.1 = (5.2 : Rat)) := by
  refine ⟨fun _ _ => rfl, fun _ _ => rfl, fun _ _ => rfl, fun _ _ => rfl, fun _ _ => rfl,
    fun _ _ => rfl, fun _ _ => rfl, fun _ _ => rfl, fun _ _ => rfl, fun v => ?_⟩
  constructor
  · simp +decide [queryCustom, parseResponse, parseLoop, stepByte, afterColon, streamAll,
      RESPONSE_TIMEOUT, responseCapacity, NUL]
  · simp +decide [queryCustom, parseResponse, parseLoop, stepByte, afterColon, streamAll,
      RESPONSE_TIMEOUT, responseCapacity, NUL, atofChars, atofAfterSign, fracDigits,
      restAfterFrac, expPart, expDigits, applyExp, digitsToNat, isDigitChar, isSpaceChar]
    norm_num

/-- The output parameter is unchanged whenever the parser reports failure. -/
theorem parseResponse_false_value (c : Char) (input : List Iter) (v : Rat)
    (h : (parseResponse c input v).1 = false) : (parseResponse c input v).2.1 = v := by
  unfold parseResponse at h ⊢
  rcases parseLoop_cases c input .waitForStart [] v with ⟨h1, _⟩ | hh
  · rw [h1] at h
    cases h
  · rw [hh]

/-- C8: the public call surface: initialization with default bus speed 9600,
nine fixed-channel query operations each specializing the one generic
operation, each query returning a success flag, writing the parsed
measurement on success and leaving the output untouched on failure. -/
theorem c8_public_surface :
    begin beginDefaultBaudRate = [BusAction.rs485begin 9600] ∧
    fixedQueries.length = 9 ∧
    (∀ p ∈ fixedQueries, ∀ (input : List Iter) (v : Rat),
      p.2 input v = queryCustom p.1 input v) ∧
    (∀ (c : Char) (input : List Iter) (v : Rat),
      ((queryCustom c input v).1 = false → (queryCustom c input v).2.1 = v) ∧
      (queryCustom c input v).2.1 = (parseResponse c input v).2.1) := by
  refine ⟨rfl, rfl, ?_, ?_⟩
  · intro p hp input v
    simp only [fixedQueries, List.mem_cons, List.not_mem_nil, or_false] at hp
    rcases hp with rfl | rfl | rfl | rfl | rfl | rfl | rfl | rfl | rfl <;> rfl
  · intro c input v
    exact ⟨fun hf => parseResponse_false_value c input v hf, rfl⟩

/-- C8 witness: the fixed temperature query is the generic query at `T`, and
a failing generic query leaves the output value unchanged. -/
theorem c8_public_surface_witness :
    queryTemp [] 7 = queryCustom 'T' [] 7 ∧ (queryCustom 'T' [] 7).2.1 = 7 := by
  constructor
  · exact c8_public_surface.2.2.1 ('T', queryTemp) (by simp [fixedQueries]) [] 7
  · exact (c8_public_surface.2.2.2 'T' [] 7).1 (by decide)

/-- C9: whenever parseResponse — and hence the generic query and each of the
nine fixed queries — returns false, the output parameter is left unchanged. -/
theorem c9_failure_preserves_output (c : Char) (input : List Iter) (v : Rat) :
    ((parseResponse c input v).1 = false → (parseResponse c input v).2.1 = v) ∧
    ((queryCustom c input v).1 = false → (queryCustom c input v).2.1 = v) ∧
    (∀ p ∈ fixedQueries, (p.2 input v).1 = false → (p.2 input v).2.1 = v) := by
  refine ⟨parseResponse_false_value c input v, parseResponse_false_value c input v, ?_⟩
  intro p hp
  simp only [fixedQueries, List.mem_cons, List.not_mem_nil, or_false] at hp
  rcases hp with rfl | rfl | rfl | rfl | rfl | rfl | rfl | rfl | rfl <;>
    exact parseResponse_false_value _ input v

/-- C9 witness: a timed-out parse and a timed-out query leave the output 7. -/
theorem c9_failure_preserves_output_witness :
    (parseResponse 'T' [] 7).2.1 = 7 ∧ (queryTemp [] 7).2.1 = 7 := by
  constructor
  · exact (c9_failure_preserves_output 'T' [] 7).1 (by decide)
  · exact (c9_failure_preserves_output 'T' [] 7).2.2 ('T', queryTemp)
      (by simp [fixedQueries]) (by decide)

/-- C10: in every reachable parser configuration the buffer index is at most
31 (so the terminating NUL write at the index stays inside the 32-byte
buffer), the waiting state has index 0, and any step that appends a byte
writes at an index at most 30. -/
theorem c10_buffer_index_bounds (c : Char) (st : ParseState) (buf : List Char)
    (h : Reachable c st buf) :
    buf.length ≤ responseCapacity - 1 ∧
    (st = .waitForStart → buf = []) ∧
    (∀ b : Char, (stepByte c st buf b).2.length = buf.length + 1 →
      buf.length + 1 ≤ responseCapacity - 1) := by
  have hinv := reachable_inv c st buf h
  refine ⟨hinv.1, hinv.2, ?_⟩
  intro b hb
  cases st with
  | waitForStart =>
    have he : buf = [] := hinv.2 rfl
    subst he
    simp [responseCapacity]
  | readPayload =>
    by_cases hcond : b = '\n' ∨ buf.length ≥ responseCapacity - 1
    · rw [show stepByte c .readPayload buf b = (.done, buf) from by
        simp only [stepByte, if_pos hcond]] at hb
      simp at hb
    · have hlt : ¬ buf.length ≥ responseCapacity - 1 := fun hh => hcond (Or.inr hh)
      unfold responseCapacity at hlt ⊢
      omega
  | done =>
    simp only [stepByte] at hb
    omega

/-- C10 witness: the initial configuration is in bounds and its first write
is in bounds. -/
theorem c10_buffer_index_bounds_witness :
    ([] : List Char).length ≤ responseCapacity - 1 ∧
    ([] : List Char).length + 1 ≤ responseCapacity - 1 := by
  have h := c10_buffer_index_bounds 'T' .waitForStart [] Reachable.init
  exact ⟨h.1, h.2.2 'T' (by decide)⟩

end WeatherBusLite
